import Mathlib

/-!
A shallow embedding of the market-data service core: the technical-indicator
engine (pkg/indicators/indicators.go), the websocket distribution hub
(internal/websocket/hub.go) and the provider manager (internal/storage/redis.go),
together with theorems that settle the stated behavioral properties.

Modelling conventions:
* Go float64 arithmetic is modelled by exact rationals; the single use of
  math.Sqrt (Bollinger standard deviation) is modelled by Real.sqrt.
* Go slices become lists, Go maps become association lists (one admissible
  iteration order), Go channels become explicit mailbox records; a send on a
  closed channel sets a panicked flag, as the corresponding Go program panics.
* Fallible functions return Except IndicatorError, mirroring the (value, error)
  pairs of the Go code.
* Periods are natural numbers; the Go code panics on period <= 0 (negative
  slice index), so theorems carry a positivity hypothesis where values matter.
-/

namespace AlgoTrading

/-- One OHLCV bar (internal/models); the timestamp field is not modelled. -/
structure OHLCV where
  open_ : ℚ
  high : ℚ
  low : ℚ
  close : ℚ
  volume : ℤ
  symbol : String
  timeframe : String
  deriving DecidableEq

/-- The zero value of the OHLCV struct, as produced by Go composite literals
that set only some fields. -/
def ohlcvZero : OHLCV := ⟨0, 0, 0, 0, 0, "", ""⟩

/-- Error taxonomy of the indicator package: the insufficient-data guard and
the fmt.Errorf wrapping used by MACD and Stochastic for inner failures. -/
inductive IndicatorError where
  | insufficientData (need got : ℕ)
  | wrapped (context : String) (inner : IndicatorError)
  deriving DecidableEq

/-- Closing-price series of a bar list. -/
def closes (data : List OHLCV) : List ℚ := data.map (·.close)

/-- High series of a bar list. -/
def highSeries (data : List OHLCV) : List ℚ := data.map (·.high)

/-- Low series of a bar list. -/
def lowSeries (data : List OHLCV) : List ℚ := data.map (·.low)

/-- The trailing window xs[i-period+1 .. i], read with getD as the Go loops do;
only used at indices with period - 1 <= i < xs.length. -/
def window (xs : List ℚ) (period i : ℕ) : List ℚ :=
  (List.range period).map fun k => xs.getD (i + 1 - period + k) 0

/-- CalculateSMA: window sum divided by period from index period-1 on,
sentinel 0 before; insufficient-data guard first. -/
def CalculateSMA (data : List OHLCV) (period : ℕ) :
    Except IndicatorError (List ℚ) :=
  if data.length < period then
    .error (.insufficientData period data.length)
  else
    .ok ((List.range data.length).map fun i =>
      if period - 1 ≤ i then (window (closes data) period i).sum / period else 0)

/-- EMA multiplier 2/(period+1). -/
def emaMultiplier (period : ℕ) : ℚ := 2 / ((period : ℚ) + 1)

/-- EMA seed: simple average of the first period closes. -/
def emaSeed (xs : List ℚ) (period : ℕ) : ℚ := (xs.take period).sum / period

/-- The EMA recurrence of CalculateEMA: 0 before index period-1, the seed at
period-1, then close*mult + prev*(1-mult). -/
def emaAt (xs : List ℚ) (period : ℕ) : ℕ → ℚ
  | 0 => if period - 1 = 0 then emaSeed xs period else 0
  | i + 1 =>
    if i + 1 < period - 1 then 0
    else if i + 1 = period - 1 then emaSeed xs period
    else xs.getD (i + 1) 0 * emaMultiplier period
         + emaAt xs period i * (1 - emaMultiplier period)

/-- CalculateEMA with the same insufficient-data guard as SMA. -/
def CalculateEMA (data : List OHLCV) (period : ℕ) :
    Except IndicatorError (List ℚ) :=
  if data.length < period then
    .error (.insufficientData period data.length)
  else
    .ok ((List.range data.length).map (emaAt (closes data) period))

/-- Per-step gain: the positive part of close[i] - close[i-1] (0 at index 0,
as the Go gains slice is only written from index 1). -/
def gainAt (xs : List ℚ) : ℕ → ℚ
  | 0 => 0
  | i + 1 =>
    if 0 < xs.getD (i + 1) 0 - xs.getD i 0 then xs.getD (i + 1) 0 - xs.getD i 0
    else 0

/-- Per-step loss: the negative part of close[i] - close[i-1]. -/
def lossAt (xs : List ℚ) : ℕ → ℚ
  | 0 => 0
  | i + 1 =>
    if 0 < xs.getD (i + 1) 0 - xs.getD i 0 then 0
    else -(xs.getD (i + 1) 0 - xs.getD i 0)

/-- Seed average gain: mean of gains[1..period]. -/
def initialAvgGain (xs : List ℚ) (period : ℕ) : ℚ :=
  (((List.range period).map fun k => gainAt xs (k + 1)).sum) / period

/-- Seed average loss: mean of losses[1..period]. -/
def initialAvgLoss (xs : List ℚ) (period : ℕ) : ℚ :=
  (((List.range period).map fun k => lossAt xs (k + 1)).sum) / period

/-- Wilder-smoothed (avgGain, avgLoss) at index period + k, following the
recurrence avg = (avg*(period-1) + new)/period of CalculateRSI. -/
def rsiAvg (xs : List ℚ) (period : ℕ) : ℕ → ℚ × ℚ
  | 0 => (initialAvgGain xs period, initialAvgLoss xs period)
  | k + 1 =>
    let p := rsiAvg xs period k
    ((p.1 * ((period : ℚ) - 1) + gainAt xs (period + k + 1)) / period,
     (p.2 * ((period : ℚ) - 1) + lossAt xs (period + k + 1)) / period)

/-- The guarded RSI formula: 100 when avgLoss = 0, else 100 - 100/(1+rs). -/
def rsiValue (g l : ℚ) : ℚ := if l = 0 then 100 else 100 - 100 / (1 + g / l)

/-- CalculateRSI: requires length >= period+1, populated from index period on. -/
def CalculateRSI (data : List OHLCV) (period : ℕ) :
    Except IndicatorError (List ℚ) :=
  if data.length < period + 1 then
    .error (.insufficientData (period + 1) data.length)
  else
    .ok ((List.range data.length).map fun i =>
      if i < period then 0
      else
        rsiValue (rsiAvg (closes data) period (i - period)).1
          (rsiAvg (closes data) period (i - period)).2)

/-- Result struct of CalculateMACD. -/
structure MACD where
  MACD : List ℚ
  Signal : List ℚ
  Histogram : List ℚ
  deriving DecidableEq

/-- The macdLine local of CalculateMACD: fastEMA - slowEMA from index
slowPeriod-1 on, sentinel 0 before. -/
def macdLineOf (len slowPeriod : ℕ) (fastEMA slowEMA : List ℚ) : List ℚ :=
  (List.range len).map fun i =>
    if slowPeriod - 1 ≤ i then fastEMA.getD i 0 - slowEMA.getD i 0 else 0

/-- The tempData local of CalculateMACD: the MACD line restricted to its
valid region, wrapped into synthetic bars for the signal EMA. -/
def macdTempData (len slowPeriod : ℕ) (line : List ℚ) : List OHLCV :=
  (List.range (len - slowPeriod + 1)).map fun k =>
    { ohlcvZero with close := line.getD (slowPeriod - 1 + k) 0 }

/-- The signalLine local of CalculateMACD: the signal EMA re-aligned to the
original index space (offset by slowPeriod-1). -/
def signalLineOf (len slowPeriod : ℕ) (signalEMA : List ℚ) : List ℚ :=
  (List.range len).map fun i =>
    if slowPeriod - 1 ≤ i then signalEMA.getD (i - (slowPeriod - 1)) 0 else 0

/-- The histogram local of CalculateMACD: MACD - signal where both defined. -/
def histogramOf (len slowPeriod signalPeriod : ℕ) (line signalLine : List ℚ) :
    List ℚ :=
  (List.range len).map fun i =>
    if slowPeriod + signalPeriod - 2 ≤ i then
      line.getD i 0 - signalLine.getD i 0
    else 0

/-- CalculateMACD: guard on slowPeriod, fast/slow EMAs (failures wrapped), MACD
line from index slowPeriod-1, signal = EMA(signalPeriod) of the MACD line
restricted to its valid region and re-aligned, histogram where both defined. -/
def CalculateMACD (data : List OHLCV) (fastPeriod slowPeriod signalPeriod : ℕ) :
    Except IndicatorError MACD :=
  if data.length < slowPeriod then
    .error (.insufficientData slowPeriod data.length)
  else
    match CalculateEMA data fastPeriod with
    | .error e => .error (.wrapped "failed to calculate fast EMA" e)
    | .ok fastEMA =>
      match CalculateEMA data slowPeriod with
      | .error e => .error (.wrapped "failed to calculate slow EMA" e)
      | .ok slowEMA =>
        match CalculateEMA
            (macdTempData data.length slowPeriod
              (macdLineOf data.length slowPeriod fastEMA slowEMA))
            signalPeriod with
        | .error e => .error (.wrapped "failed to calculate signal EMA" e)
        | .ok signalEMA =>
          .ok ⟨macdLineOf data.length slowPeriod fastEMA slowEMA,
               signalLineOf data.length slowPeriod signalEMA,
               histogramOf data.length slowPeriod signalPeriod
                 (macdLineOf data.length slowPeriod fastEMA slowEMA)
                 (signalLineOf data.length slowPeriod signalEMA)⟩

/-- Result struct of CalculateBollingerBands; Middle is the reused SMA list,
Upper and Lower involve math.Sqrt and are modelled over the reals. -/
structure BollingerBands where
  Upper : List ℝ
  Middle : List ℚ
  Lower : List ℝ

/-- The population variance of the trailing window around the mean m:
sum of squared deviations divided by period (the quantity under math.Sqrt). -/
def bbVarWith (xs : List ℚ) (period i : ℕ) (m : ℚ) : ℚ :=
  (((window xs period i).map fun x => (x - m) * (x - m)).sum) / period

/-- The upper-band local of CalculateBollingerBands: middle plus deviation
times the square root of the window population variance. -/
noncomputable def bbUpper (len period : ℕ) (deviation : ℚ) (xs sma : List ℚ) :
    List ℝ :=
  (List.range len).map fun i =>
    if period - 1 ≤ i then
      (sma.getD i 0 : ℝ)
        + (deviation : ℝ)
          * Real.sqrt ((bbVarWith xs period i (sma.getD i 0) : ℚ) : ℝ)
    else 0

/-- The lower-band local of CalculateBollingerBands. -/
noncomputable def bbLower (len period : ℕ) (deviation : ℚ) (xs sma : List ℚ) :
    List ℝ :=
  (List.range len).map fun i =>
    if period - 1 ≤ i then
      (sma.getD i 0 : ℝ)
        - (deviation : ℝ)
          * Real.sqrt ((bbVarWith xs period i (sma.getD i 0) : ℚ) : ℝ)
    else 0

/-- CalculateBollingerBands: middle = SMA (failures wrapped), upper/lower =
middle plus/minus deviation times the window standard deviation. -/
noncomputable def CalculateBollingerBands (data : List OHLCV) (period : ℕ)
    (deviation : ℚ) : Except IndicatorError BollingerBands :=
  if data.length < period then
    .error (.insufficientData period data.length)
  else
    match CalculateSMA data period with
    | .error e => .error (.wrapped "failed to calculate SMA" e)
    | .ok sma =>
      .ok ⟨bbUpper data.length period deviation (closes data) sma, sma,
           bbLower data.length period deviation (closes data) sma⟩

/-- Maximum of a nonempty list, as the Go highest-high scan (0 for []). -/
def listMax : List ℚ → ℚ
  | [] => 0
  | x :: xs => xs.foldl max x

/-- Minimum of a nonempty list, as the Go lowest-low scan (0 for []). -/
def listMin : List ℚ → ℚ
  | [] => 0
  | x :: xs => xs.foldl min x

/-- Highest high of the trailing kPeriod window ending at i. -/
def windowHigh (data : List OHLCV) (kPeriod i : ℕ) : ℚ :=
  listMax (window (highSeries data) kPeriod i)

/-- Lowest low of the trailing kPeriod window ending at i. -/
def windowLow (data : List OHLCV) (kPeriod i : ℕ) : ℚ :=
  listMin (window (lowSeries data) kPeriod i)

/-- The %K value at index i: 50 when the window range is degenerate, else
(close - lowestLow)/(highestHigh - lowestLow) * 100. -/
def stochKAt (data : List OHLCV) (kPeriod i : ℕ) : ℚ :=
  let highest := windowHigh data kPeriod i
  let lowest := windowLow data kPeriod i
  if highest = lowest then 50
  else ((closes data).getD i 0 - lowest) / (highest - lowest) * 100

/-- Result struct of CalculateStochastic. -/
structure Stochastic where
  K : List ℚ
  D : List ℚ
  deriving DecidableEq

/-- The %K local of CalculateStochastic: stochKAt from index kPeriod-1 on,
sentinel 0 before. -/
def stochKList (data : List OHLCV) (kPeriod : ℕ) : List ℚ :=
  (List.range data.length).map fun i =>
    if kPeriod - 1 ≤ i then stochKAt data kPeriod i else 0

/-- The tempData local of CalculateStochastic: the %K values wrapped into
synthetic bars for the %D SMA. -/
def stochTempData (ks : List ℚ) : List OHLCV :=
  ks.map fun v => { ohlcvZero with close := v }

/-- The dLine local of CalculateStochastic: %D re-aligned to the original
index space (offset by kPeriod-1). -/
def dLineOf (len kPeriod : ℕ) (d : List ℚ) : List ℚ :=
  (List.range len).map fun i =>
    if kPeriod - 1 ≤ i then d.getD (i - (kPeriod - 1)) 0 else 0

/-- CalculateStochastic: %K with the degenerate-range guard, %D = SMA(dPeriod)
of the %K series from index kPeriod-1 on, re-aligned (failures wrapped). -/
def CalculateStochastic (data : List OHLCV) (kPeriod dPeriod : ℕ) :
    Except IndicatorError Stochastic :=
  if data.length < kPeriod then
    .error (.insufficientData kPeriod data.length)
  else
    match CalculateSMA ((stochTempData (stochKList data kPeriod)).drop
        (kPeriod - 1)) dPeriod with
    | .error e => .error (.wrapped "failed to calculate %D" e)
    | .ok d =>
      .ok ⟨stochKList data kPeriod, dLineOf data.length kPeriod d⟩

/-- True range at index i >= 1: max(high-low, |high-prevClose|, |low-prevClose|). -/
def trAt (data : List OHLCV) : ℕ → ℚ
  | 0 => 0
  | i + 1 =>
    let b := data.getD (i + 1) ohlcvZero
    let prev := data.getD i ohlcvZero
    max (b.high - b.low) (max |b.high - prev.close| |b.low - prev.close|)

/-- The ATR value at index period + k: seeded with the mean of the first
period true ranges, then Wilder smoothing. -/
def atrAt (data : List OHLCV) (period : ℕ) : ℕ → ℚ
  | 0 => (((List.range period).map fun j => trAt data (j + 1)).sum) / period
  | k + 1 =>
    (atrAt data period k * ((period : ℚ) - 1) + trAt data (period + k + 1))
      / period

/-- CalculateATR: requires length >= period+1, populated from index period on. -/
def CalculateATR (data : List OHLCV) (period : ℕ) :
    Except IndicatorError (List ℚ) :=
  if data.length < period + 1 then
    .error (.insufficientData (period + 1) data.length)
  else
    .ok ((List.range data.length).map fun i =>
      if i < period then 0 else atrAt data period (i - period))

/-- A client's bounded outbound channel (make(chan []byte, 256)): queued
messages, capacity, and whether close() was called on it. -/
structure Mailbox where
  queue : List String
  cap : ℕ
  closed : Bool

/-- The hub state: registered clients, the symbol subscription map as an
association list, per-client mailboxes, and a flag recording whether the
program has panicked (a Go send on a closed channel panics). Clients are
identified by naturals. -/
structure Hub where
  clients : List ℕ
  subscriptions : List (String × List ℕ)
  mailboxes : ℕ → Mailbox
  panicked : Bool

/-- Lookup in the subscription map. -/
def subsLookup : List (String × List ℕ) → String → Option (List ℕ)
  | [], _ => none
  | (s, cs) :: rest, sym => if s = sym then some cs else subsLookup rest sym

/-- Replace the subscriber set of a symbol already present in the map. -/
def subsSet : List (String × List ℕ) → String → List ℕ → List (String × List ℕ)
  | [], _, _ => []
  | (s, old) :: rest, sym, cs =>
    if s = sym then (s, cs) :: rest else (s, old) :: subsSet rest sym cs

/-- Delete a symbol's entry from the map. -/
def subsErase : List (String × List ℕ) → String → List (String × List ℕ)
  | [], _ => []
  | (s, cs) :: rest, sym =>
    if s = sym then rest else (s, cs) :: subsErase rest sym

/-- Pointwise update of the mailbox assignment. -/
def updateMailbox (f : ℕ → Mailbox) (c : ℕ) (mb : Mailbox) : ℕ → Mailbox :=
  fun x => if x = c then mb else f x

/-- One delivery attempt of the global broadcast loop: the select statement
enqueues if the buffer has room, and in the default branch closes the channel
and deletes the client from h.clients (subscriptions are left untouched).
A send on an already-closed channel panics. -/
def broadcastStep (m : String) (h : Hub) (c : ℕ) : Hub :=
  let mb := h.mailboxes c
  if mb.closed then { h with panicked := true }
  else if mb.queue.length < mb.cap then
    { h with mailboxes := updateMailbox h.mailboxes c { mb with queue := mb.queue ++ [m] } }
  else
    { h with clients := h.clients.erase c,
             mailboxes := updateMailbox h.mailboxes c { mb with closed := true } }

/-- The broadcast case of Hub.Run: attempt delivery to every registered client. -/
def Hub.Broadcast (h : Hub) (m : String) : Hub :=
  h.clients.foldl (broadcastStep m) h

/-- One delivery attempt of BroadcastToSymbol: as broadcastStep, but the
default branch additionally deletes the client from this one symbol's
subscriber set (without pruning the entry if it becomes empty). -/
def broadcastToSymbolStep (sym m : String) (h : Hub) (c : ℕ) : Hub :=
  let mb := h.mailboxes c
  if mb.closed then { h with panicked := true }
  else if mb.queue.length < mb.cap then
    { h with mailboxes := updateMailbox h.mailboxes c { mb with queue := mb.queue ++ [m] } }
  else
    { h with clients := h.clients.erase c,
             subscriptions :=
               match subsLookup h.subscriptions sym with
               | some cs => subsSet h.subscriptions sym (cs.erase c)
               | none => h.subscriptions,
             mailboxes := updateMailbox h.mailboxes c { mb with closed := true } }

/-- Hub.BroadcastToSymbol: deliver to the symbol's subscriber set, if any. -/
def Hub.BroadcastToSymbol (h : Hub) (sym m : String) : Hub :=
  match subsLookup h.subscriptions sym with
  | none => h
  | some cs => cs.foldl (broadcastToSymbolStep sym m) h

/-- Hub.Subscribe: create the symbol's set on first use, then add the client
(map insertion, hence idempotent). -/
def Hub.Subscribe (h : Hub) (c : ℕ) (sym : String) : Hub :=
  match subsLookup h.subscriptions sym with
  | none => { h with subscriptions := h.subscriptions ++ [(sym, [c])] }
  | some cs =>
    { h with subscriptions :=
        subsSet h.subscriptions sym (if c ∈ cs then cs else cs ++ [c]) }

/-- Hub.Unsubscribe: delete the client from the symbol's set and prune the
entry if the set becomes empty; a symbol with no entry is left alone. -/
def Hub.Unsubscribe (h : Hub) (c : ℕ) (sym : String) : Hub :=
  match subsLookup h.subscriptions sym with
  | none => h
  | some cs =>
    if cs.erase c = [] then
      { h with subscriptions := subsErase h.subscriptions sym }
    else { h with subscriptions := subsSet h.subscriptions sym (cs.erase c) }

/-- The per-symbol cleanup of the unregister case of Hub.Run: for every symbol
whose set contains the client, delete it and prune the entry if it empties. -/
def pruneClient : List (String × List ℕ) → ℕ → List (String × List ℕ)
  | [], _ => []
  | (s, cs) :: rest, c =>
    if c ∈ cs then
      let cs' := cs.erase c
      if cs' = [] then pruneClient rest c else (s, cs') :: pruneClient rest c
    else (s, cs) :: pruneClient rest c

/-- The register case of Hub.Run: add the client to the registry (map set). -/
def Hub.registerClient (h : Hub) (c : ℕ) : Hub :=
  { h with clients := if c ∈ h.clients then h.clients else h.clients ++ [c] }

/-- The unregister case of Hub.Run: if registered, remove from the registry,
close the mailbox, and remove from every subscription set, pruning empties. -/
def Hub.unregisterClient (h : Hub) (c : ℕ) : Hub :=
  if c ∈ h.clients then
    { h with clients := h.clients.erase c,
             subscriptions := pruneClient h.subscriptions c,
             mailboxes :=
               updateMailbox h.mailboxes c { h.mailboxes c with closed := true } }
  else h

/-- The routing fields of a websocket frame ({type, symbol}); the Go struct
also carries data and timestamp fields, not modelled here. An absent symbol
field unmarshals to the empty string. -/
structure WebSocketMessage where
  type_ : String
  symbol : String
  deriving DecidableEq

/-- Model of json.Marshal on the routing fields of a frame. -/
def serializeMessage (m : WebSocketMessage) : String := m.type_ ++ "|" ++ m.symbol

/-- Client.sendMessage: marshal and run the same select as a broadcast
delivery on the client's own mailbox (enqueue, or close-and-drop when full). -/
def Client.sendMessage (h : Hub) (c : ℕ) (msg : WebSocketMessage) : Hub :=
  broadcastStep (serializeMessage msg) h c

/-- Client.handleMessage: subscribe/unsubscribe mutate state and elicit an
acknowledgement only for a non-empty symbol; ping elicits pong; unknown types
are ignored. Returns the new hub state and the frames passed to sendMessage. -/
def Client.handleMessage (h : Hub) (c : ℕ) (msg : WebSocketMessage) :
    Hub × List WebSocketMessage :=
  if msg.type_ = "subscribe" then
    if msg.symbol ≠ "" then
      let ack : WebSocketMessage := ⟨"subscribed", msg.symbol⟩
      (Client.sendMessage (h.Subscribe c msg.symbol) c ack, [ack])
    else (h, [])
  else if msg.type_ = "unsubscribe" then
    if msg.symbol ≠ "" then
      let ack : WebSocketMessage := ⟨"unsubscribed", msg.symbol⟩
      (Client.sendMessage (h.Unsubscribe c msg.symbol) c ack, [ack])
    else (h, [])
  else if msg.type_ = "ping" then
    let pong : WebSocketMessage := ⟨"pong", ""⟩
    (Client.sendMessage h c pong, [pong])
  else (h, [])

/-- A tick (internal/models); the timestamp field is not modelled. -/
structure Tick where
  symbol : String
  price : ℚ
  volume : ℤ
  deriving DecidableEq

/-- A market data provider, modelled as the record of behaviors reachable
through the MarketDataProvider interface: its connectivity state and the
results of GetQuote and GetOHLCV. -/
structure MarketDataProvider where
  connected : Bool
  quote : String → Except String Tick
  ohlcv : String → String → ℤ → ℤ → Except String (List OHLCV)
  name : String

/-- Errors of the manager-level quote/OHLCV calls: its own
"no connected providers available" failure, or a delegated provider error. -/
inductive ManagerError where
  | noProvider
  | providerError (e : String)
  deriving DecidableEq

/-- The manager state: the name-to-provider registry (an association list)
and the designated active provider. -/
structure APIManager where
  providers : List (String × MarketDataProvider)
  active : Option MarketDataProvider

/-- The fallback scan of GetQuote/GetOHLCV: the first connected provider of
the registry, in iteration order. -/
def findConnected : List (String × MarketDataProvider) →
    Option MarketDataProvider
  | [] => none
  | (_, p) :: rest => if p.connected then some p else findConnected rest

/-- APIManager.GetQuote: delegate to the active provider when it is set and
connected, otherwise to the first connected provider of the registry, else
fail with the no-provider error. -/
def APIManager.GetQuote (am : APIManager) (symbol : String) :
    Except ManagerError Tick :=
  match am.active with
  | some a =>
    if a.connected then (a.quote symbol).mapError ManagerError.providerError
    else
      match findConnected am.providers with
      | some p => (p.quote symbol).mapError ManagerError.providerError
      | none => .error .noProvider
  | none =>
    match findConnected am.providers with
    | some p => (p.quote symbol).mapError ManagerError.providerError
    | none => .error .noProvider

/-- APIManager.GetOHLCV: same delegation and fallback structure as GetQuote. -/
def APIManager.GetOHLCV (am : APIManager) (symbol timeframe : String)
    (fromT toT : ℤ) : Except ManagerError (List OHLCV) :=
  match am.active with
  | some a =>
    if a.connected then
      (a.ohlcv symbol timeframe fromT toT).mapError ManagerError.providerError
    else
      match findConnected am.providers with
      | some p =>
        (p.ohlcv symbol timeframe fromT toT).mapError ManagerError.providerError
      | none => .error .noProvider
  | none =>
    match findConnected am.providers with
    | some p =>
      (p.ohlcv symbol timeframe fromT toT).mapError ManagerError.providerError
    | none => .error .noProvider

/-- Well-formedness of a manager state: the active pointer, when set, refers
to a registered provider. NewAPIManager starts with no active provider and
SetActiveProvider only installs a provider found in the registry, so every
state reached without re-registering an existing name satisfies this. -/
def APIManager.ActiveRegistered (am : APIManager) : Prop :=
  ∀ a, am.active = some a → ∃ n, (n, a) ∈ am.providers

/-- Total access to a successful result list (empty list on error). -/
def resultList (r : Except IndicatorError (List ℚ)) : List ℚ :=
  r.toOption.getD []

/-- The %K list of a successful stochastic result (empty list on error). -/
def stochasticKList (r : Except IndicatorError Stochastic) : List ℚ :=
  (r.toOption.map Stochastic.K).getD []

/-- A list-valued indicator result has the given length when it is a success. -/
def lengthsOk : Except IndicatorError (List ℚ) → ℕ → Prop
  | .ok l, n => l.length = n
  | .error _, _ => True

/-- All three MACD component series have the given length on success. -/
def macdLengthsOk : Except IndicatorError MACD → ℕ → Prop
  | .ok m, n => m.MACD.length = n ∧ m.Signal.length = n ∧ m.Histogram.length = n
  | .error _, _ => True

/-- All three Bollinger bands have the given length on success. -/
def bbLengthsOk : Except IndicatorError BollingerBands → ℕ → Prop
  | .ok b, n => b.Upper.length = n ∧ b.Middle.length = n ∧ b.Lower.length = n
  | .error _, _ => True

/-- Both stochastic series have the given length on success. -/
def stochLengthsOk : Except IndicatorError Stochastic → ℕ → Prop
  | .ok s, n => s.K.length = n ∧ s.D.length = n
  | .error _, _ => True

/-- A Bollinger result is a success whose bands at index i are strictly
ordered Lower < Middle < Upper. -/
def bbOrdered (r : Except IndicatorError BollingerBands) (i : ℕ) : Prop :=
  match r with
  | .ok bb =>
      bb.Lower.getD i 0 < (bb.Middle.getD i 0 : ℝ)
        ∧ (bb.Middle.getD i 0 : ℝ) < bb.Upper.getD i 0
  | .error _ => False

/-- The ten bars of createTestOHLCVData in the repository's indicator tests:
opens run from 100, closes from 102 up to 122, strictly increasing. -/
def testData : List OHLCV :=
  [⟨100, 105, 98, 102, 1000, "TEST", "1d"⟩,
   ⟨102, 108, 101, 106, 1100, "TEST", "1d"⟩,
   ⟨106, 110, 104, 108, 1200, "TEST", "1d"⟩,
   ⟨108, 112, 106, 110, 1300, "TEST", "1d"⟩,
   ⟨110, 115, 109, 113, 1400, "TEST", "1d"⟩,
   ⟨113, 117, 111, 115, 1500, "TEST", "1d"⟩,
   ⟨115, 119, 114, 117, 1600, "TEST", "1d"⟩,
   ⟨117, 120, 116, 118, 1700, "TEST", "1d"⟩,
   ⟨118, 122, 117, 120, 1800, "TEST", "1d"⟩,
   ⟨120, 124, 119, 122, 1900, "TEST", "1d"⟩]

instance {ε α : Type _} [DecidableEq ε] [DecidableEq α] :
    DecidableEq (Except ε α) := fun x y =>
  match x, y with
  | .ok a, .ok b =>
    if h : a = b then isTrue (by rw [h])
    else isFalse (fun he => by cases he; exact h rfl)
  | .error e, .error f =>
    if h : e = f then isTrue (by rw [h])
    else isFalse (fun he => by cases he; exact h rfl)
  | .ok _, .error _ => isFalse (fun he => by cases he)
  | .error _, .ok _ => isFalse (fun he => by cases he)

/-- The two-bar series of TestInsufficientData. -/
def shortData : List OHLCV :=
  [⟨100, 105, 98, 102, 1000, "TEST", "1d"⟩,
   ⟨102, 108, 101, 106, 1100, "TEST", "1d"⟩]

/-- Three bars with closes 1, 2, 3: long enough for MACD's slowPeriod guard
with slowPeriod = 3, yet too short for its signal EMA. -/
def macdShortData : List OHLCV :=
  [{ ohlcvZero with close := 1 }, { ohlcvZero with close := 2 },
   { ohlcvZero with close := 3 }]

/-- A hub with one registered client subscribed to symbol X whose mailbox
(capacity 0) is full. -/
def hubFullMailbox : Hub :=
  { clients := [1],
    subscriptions := [("X", [1])],
    mailboxes := fun _ => { queue := [], cap := 0, closed := false },
    panicked := false }

/-- A hub with no clients and empty maps whose mailboxes have room. -/
def hubIdle : Hub :=
  { clients := [],
    subscriptions := [],
    mailboxes := fun _ => { queue := [], cap := 256, closed := false },
    panicked := false }

/-- Scenario provider A: registered but disconnected. -/
def providerA : MarketDataProvider :=
  { connected := false,
    quote := fun _ => .error "not connected",
    ohlcv := fun _ _ _ _ => .error "not connected",
    name := "A" }

/-- Scenario provider B: connected, answering every quote. -/
def providerB : MarketDataProvider :=
  { connected := true,
    quote := fun s => .ok { symbol := s, price := 100, volume := 0 },
    ohlcv := fun _ _ _ _ => .ok [],
    name := "B" }

/-- The manager of end-to-end scenario D: providers {A: disconnected,
B: connected}, active = A. -/
def managerAB : APIManager :=
  { providers := [("A", providerA), ("B", providerB)], active := some providerA }

/-- A manager whose single registered provider B is active and connected. -/
def managerB : APIManager :=
  { providers := [("B", providerB)], active := some providerB }

/-! General lemmas about the embedding. -/

theorem getD_range_map {α : Type _} (f : ℕ → α) (d : α) {n i : ℕ} (h : i < n) :
    ((List.range n).map f).getD i d = f i := by
  rw [List.getD_eq_getElem?_getD, List.getElem?_map, List.getElem?_range h]
  rfl

theorem resultList_ok (l : List ℚ) : resultList (.ok l) = l := rfl

theorem calculateSMA_ok {data : List OHLCV} {p : ℕ} (h : p ≤ data.length) :
    CalculateSMA data p =
      .ok ((List.range data.length).map fun i =>
        if p - 1 ≤ i then (window (closes data) p i).sum / p else 0) := by
  simp [CalculateSMA, Nat.not_lt.mpr h]

theorem sma_getD {data : List OHLCV} {p i : ℕ} (hlen : p ≤ data.length)
    (hi : i < data.length) :
    (resultList (CalculateSMA data p)).getD i 0 =
      if p - 1 ≤ i then (window (closes data) p i).sum / p else 0 := by
  rw [calculateSMA_ok hlen, resultList_ok, getD_range_map _ _ hi]

theorem calculateEMA_ok {data : List OHLCV} {p : ℕ} (h : p ≤ data.length) :
    CalculateEMA data p =
      .ok ((List.range data.length).map (emaAt (closes data) p)) := by
  simp [CalculateEMA, Nat.not_lt.mpr h]

theorem calculateRSI_ok {data : List OHLCV} {p : ℕ} (h : p + 1 ≤ data.length) :
    CalculateRSI data p =
      .ok ((List.range data.length).map fun i =>
        if i < p then 0
        else
          rsiValue (rsiAvg (closes data) p (i - p)).1
            (rsiAvg (closes data) p (i - p)).2) := by
  simp [CalculateRSI, Nat.not_lt.mpr h]

theorem rsi_getD {data : List OHLCV} {p i : ℕ} (hlen : p + 1 ≤ data.length)
    (hi : i < data.length) :
    (resultList (CalculateRSI data p)).getD i 0 =
      if i < p then 0
      else
        rsiValue (rsiAvg (closes data) p (i - p)).1
          (rsiAvg (closes data) p (i - p)).2 := by
  rw [calculateRSI_ok hlen, resultList_ok, getD_range_map _ _ hi]

theorem gainAt_nonneg (xs : List ℚ) (i : ℕ) : 0 ≤ gainAt xs i := by
  cases i with
  | zero => exact le_refl 0
  | succ n =>
    simp only [gainAt]
    split
    · next hc => exact le_of_lt hc
    · exact le_refl 0

theorem lossAt_nonneg (xs : List ℚ) (i : ℕ) : 0 ≤ lossAt xs i := by
  cases i with
  | zero => exact le_refl 0
  | succ n =>
    simp only [lossAt]
    split
    · exact le_refl 0
    · next hc => linarith [not_lt.mp hc]

theorem rsiAvg_nonneg (xs : List ℚ) (p : ℕ) (hp : 1 ≤ p) :
    ∀ k, 0 ≤ (rsiAvg xs p k).1 ∧ 0 ≤ (rsiAvg xs p k).2 := by
  intro k
  induction k with
  | zero =>
    refine ⟨div_nonneg (List.sum_nonneg ?_) (Nat.cast_nonneg p),
            div_nonneg (List.sum_nonneg ?_) (Nat.cast_nonneg p)⟩
    · intro x hx
      obtain ⟨j, _, rfl⟩ := List.mem_map.mp hx
      exact gainAt_nonneg xs (j + 1)
    · intro x hx
      obtain ⟨j, _, rfl⟩ := List.mem_map.mp hx
      exact lossAt_nonneg xs (j + 1)
  | succ k ih =>
    have hp' : (0 : ℚ) ≤ (p : ℚ) - 1 := by
      have : (1 : ℚ) ≤ (p : ℚ) := by exact_mod_cast hp
      linarith
    exact ⟨div_nonneg
             (add_nonneg (mul_nonneg ih.1 hp') (gainAt_nonneg xs (p + k + 1)))
             (Nat.cast_nonneg p),
           div_nonneg
             (add_nonneg (mul_nonneg ih.2 hp') (lossAt_nonneg xs (p + k + 1)))
             (Nat.cast_nonneg p)⟩

theorem rsiValue_bounds {g l : ℚ} (hg : 0 ≤ g) (hl : 0 ≤ l) :
    0 ≤ rsiValue g l ∧ rsiValue g l ≤ 100 ∧ (rsiValue g l = 100 ↔ l = 0) := by
  unfold rsiValue
  by_cases h : l = 0
  · simp [h]
  · rw [if_neg h]
    have hlpos : 0 < l := lt_of_le_of_ne hl (Ne.symm h)
    have hrs : 0 ≤ g / l := div_nonneg hg hl
    have h1 : (0 : ℚ) < 1 + g / l := by linarith
    have hq : 0 < 100 / (1 + g / l) := by positivity
    have hq2 : 100 / (1 + g / l) ≤ 100 := div_le_self (by norm_num) (by linarith)
    refine ⟨by linarith, by linarith, ?_⟩
    constructor
    · intro he
      exfalso
      have : 100 / (1 + g / l) = 0 := by linarith
      linarith
    · intro he
      exact absurd he h

/-- Claim C2: for every indicator and every input shorter than its minimum
window (period for SMA/EMA/Bollinger, period+1 for RSI/ATR, slowPeriod for
MACD, kPeriod for Stochastic), the call fails with the InsufficientData error
and produces no result value. -/
theorem c2_insufficient_data (data : List OHLCV) (p f s g k d : ℕ) (dev : ℚ) :
    (data.length < p →
      CalculateSMA data p = .error (.insufficientData p data.length))
  ∧ (data.length < p →
      CalculateEMA data p = .error (.insufficientData p data.length))
  ∧ (data.length < p + 1 →
      CalculateRSI data p = .error (.insufficientData (p + 1) data.length))
  ∧ (data.length < s →
      CalculateMACD data f s g = .error (.insufficientData s data.length))
  ∧ (data.length < p →
      CalculateBollingerBands data p dev
        = .error (.insufficientData p data.length))
  ∧ (data.length < k →
      CalculateStochastic data k d = .error (.insufficientData k data.length))
  ∧ (data.length < p + 1 →
      CalculateATR data p = .error (.insufficientData (p + 1) data.length)) := by
  refine ⟨fun h => ?_, fun h => ?_, fun h => ?_, fun h => ?_, fun h => ?_,
    fun h => ?_, fun h => ?_⟩
  · simp [CalculateSMA, h]
  · simp [CalculateEMA, h]
  · simp [CalculateRSI, h]
  · simp [CalculateMACD, h]
  · simp [CalculateBollingerBands, h]
  · simp [CalculateStochastic, h]
  · simp [CalculateATR, h]

/-- Witness for C2 at the repository's two-bar insufficient-data series:
2 bars into RSI(5) (end-to-end scenario B), SMA(5) and ATR(5) all fail with
the InsufficientData error. -/
theorem c2_insufficient_data_witness :
    shortData.length < 5
  ∧ CalculateRSI shortData 5 = .error (.insufficientData 6 shortData.length)
  ∧ CalculateSMA shortData 5 = .error (.insufficientData 5 shortData.length)
  ∧ CalculateATR shortData 5 = .error (.insufficientData 6 shortData.length) :=
  ⟨by decide,
   (c2_insufficient_data shortData 5 3 6 3 5 3 2).2.2.1 (by decide),
   (c2_insufficient_data shortData 5 3 6 3 5 3 2).1 (by decide),
   (c2_insufficient_data shortData 5 3 6 3 5 3 2).2.2.2.2.2.2 (by decide)⟩

/-- Counterexample to claim C3 as stated: three bars are at least MACD's
minimum window slowPeriod = 3, yet CalculateMACD(fast=2, slow=3, signal=3)
produces no output at all — the signal EMA receives only
length - slowPeriod + 1 = 1 values and fails with InsufficientData. -/
theorem c3_counterexample :
    macdShortData.length = 3
  ∧ CalculateMACD macdShortData 2 3 3
      = .error (.wrapped "failed to calculate signal EMA"
          (.insufficientData 3 1)) := by
  constructor
  · rfl
  · decide

/-- Claim C3 (amended): whenever an indicator call returns a result, every
output component series — including each component of MACD, Bollinger Bands
and Stochastic — has exactly the input series' length; SMA, EMA, Bollinger
(length >= period), RSI and ATR (length >= period+1) always succeed on such
inputs, while MACD and Stochastic additionally require enough data for their
inner signal/%D computation (length - slowPeriod + 1 >= signalPeriod,
resp. length - kPeriod + 1 >= dPeriod). -/
theorem c3_output_lengths :
    (∀ data p, lengthsOk (CalculateSMA data p) data.length)
  ∧ (∀ data p, lengthsOk (CalculateEMA data p) data.length)
  ∧ (∀ data p, lengthsOk (CalculateRSI data p) data.length)
  ∧ (∀ data f s g, macdLengthsOk (CalculateMACD data f s g) data.length)
  ∧ (∀ data p dev, bbLengthsOk (CalculateBollingerBands data p dev) data.length)
  ∧ (∀ data k d, stochLengthsOk (CalculateStochastic data k d) data.length)
  ∧ (∀ data p, lengthsOk (CalculateATR data p) data.length)
  ∧ (∀ data p, p ≤ data.length → (CalculateSMA data p).isOk = true)
  ∧ (∀ data p, p ≤ data.length → (CalculateEMA data p).isOk = true)
  ∧ (∀ data p, p + 1 ≤ data.length → (CalculateRSI data p).isOk = true)
  ∧ (∀ data p (dev : ℚ), p ≤ data.length →
      (CalculateBollingerBands data p dev).isOk = true)
  ∧ (∀ data p, p + 1 ≤ data.length → (CalculateATR data p).isOk = true)
  ∧ (∀ data f s g, f ≤ data.length → s ≤ data.length →
      g ≤ data.length - s + 1 → (CalculateMACD data f s g).isOk = true)
  ∧ (∀ data k d, 1 ≤ k → k ≤ data.length → d ≤ data.length - k + 1 →
      (CalculateStochastic data k d).isOk = true) := by
  refine ⟨?_, ?_, ?_, ?_, ?_, ?_, ?_, ?_, ?_, ?_, ?_, ?_, ?_, ?_⟩
  · intro data p
    by_cases h : data.length < p <;> simp [CalculateSMA, h, lengthsOk]
  · intro data p
    by_cases h : data.length < p <;> simp [CalculateEMA, h, lengthsOk]
  · intro data p
    by_cases h : data.length < p + 1 <;> simp [CalculateRSI, h, lengthsOk]
  · intro data f s g
    unfold CalculateMACD
    split
    · simp [macdLengthsOk]
    · split
      · simp [macdLengthsOk]
      · split
        · simp [macdLengthsOk]
        · split
          · simp [macdLengthsOk]
          · simp [macdLengthsOk, macdLineOf, signalLineOf, histogramOf]
  · intro data p dev
    unfold CalculateBollingerBands
    split
    · simp [bbLengthsOk]
    · next h =>
      split
      · simp [bbLengthsOk]
      · next sma heq =>
        have hok := calculateSMA_ok (Nat.le_of_not_lt h)
        rw [hok] at heq
        injection heq with heq
        subst heq
        simp [bbLengthsOk, bbUpper, bbLower]
  · intro data k d
    unfold CalculateStochastic
    split
    · simp [stochLengthsOk]
    · split
      · simp [stochLengthsOk]
      · simp [stochLengthsOk, stochKList, dLineOf]
  · intro data p
    by_cases h : data.length < p + 1 <;> simp [CalculateATR, h, lengthsOk]
  · intro data p h
    rw [calculateSMA_ok h]
    rfl
  · intro data p h
    rw [calculateEMA_ok h]
    rfl
  · intro data p h
    rw [calculateRSI_ok h]
    rfl
  · intro data p dev h
    simp [CalculateBollingerBands, Nat.not_lt.mpr h, calculateSMA_ok h]
    rfl
  · intro data p h
    simp [CalculateATR, Nat.not_lt.mpr h]
    rfl
  · intro data f s g hf hs hg
    have htmp : ¬ ((macdTempData data.length s
        (macdLineOf data.length s
          ((List.range data.length).map (emaAt (closes data) f))
          ((List.range data.length).map (emaAt (closes data) s)))).length < g) := by
      simp [macdTempData, Nat.not_lt.mpr hg]
    unfold CalculateMACD
    rw [if_neg (Nat.not_lt.mpr hs), calculateEMA_ok hf, calculateEMA_ok hs]
    dsimp only
    rw [calculateEMA_ok (Nat.le_of_not_lt htmp)]
    rfl
  · intro data k d hk1 hk hd
    have hlen : d ≤ ((stochTempData (stochKList data k)).drop (k - 1)).length := by
      simp only [List.length_drop, stochTempData, stochKList, List.length_map,
        List.length_range]
      omega
    unfold CalculateStochastic
    rw [if_neg (Nat.not_lt.mpr hk), calculateSMA_ok hlen]
    rfl

/-- Witness for C3's success conditions at the repository's ten-bar test
series with the periods used by its tests. -/
theorem c3_output_lengths_witness :
    (CalculateSMA testData 5).isOk = true
  ∧ (CalculateRSI testData 5).isOk = true
  ∧ (CalculateStochastic testData 5 3).isOk = true :=
  ⟨c3_output_lengths.2.2.2.2.2.2.2.1 testData 5 (by decide),
   c3_output_lengths.2.2.2.2.2.2.2.2.2.1 testData 5 (by decide),
   c3_output_lengths.2.2.2.2.2.2.2.2.2.2.2.2.2 testData 5 3 (by decide)
     (by decide) (by decide)⟩

/-- Claim C4: for every series of length at least p and every index i with
p-1 <= i < length, SMA(p) at i equals the arithmetic mean of the trailing p
closes (exactly, hence a fortiori within tolerance 1e-9); all earlier
positions hold the sentinel 0; and on the repository's ten-bar strictly
increasing test series, SMA(5) at index 4 equals
(102+106+108+110+113)/5 = 107.8. -/
theorem c4_sma_mean (data : List OHLCV) (p i : ℕ) (hp : 1 ≤ p)
    (hlen : p ≤ data.length) :
    (CalculateSMA data p).isOk = true
  ∧ (p - 1 ≤ i → i < data.length →
      (resultList (CalculateSMA data p)).getD i 0
        = (window (closes data) p i).sum / p)
  ∧ (∀ j, j < p - 1 → (resultList (CalculateSMA data p)).getD j 0 = 0)
  ∧ (resultList (CalculateSMA testData 5)).getD 4 0
      = ((102 : ℚ) + 106 + 108 + 110 + 113) / 5 := by
  refine ⟨?_, ?_, ?_, ?_⟩
  · rw [calculateSMA_ok hlen]
    rfl
  · intro hi hilen
    rw [sma_getD hlen hilen, if_pos hi]
  · intro j hj
    have hjlen : j < data.length := by omega
    rw [sma_getD hlen hjlen, if_neg (Nat.not_le.mpr hj)]
  · have h4 : (4 : ℕ) < testData.length := by decide
    have h5 : (5 : ℕ) ≤ testData.length := by decide
    rw [sma_getD h5 h4, if_pos (by decide : 5 - 1 ≤ 4)]
    norm_num [window, closes, testData, List.range_succ]

/-- Witness for C4 at the ten-bar test series with period 5 and index 4. -/
theorem c4_sma_mean_witness :
    (CalculateSMA testData 5).isOk = true
  ∧ (resultList (CalculateSMA testData 5)).getD 4 0
      = (window (closes testData) 5 4).sum / 5 :=
  ⟨(c4_sma_mean testData 5 4 (by decide) (by decide)).1,
   (c4_sma_mean testData 5 4 (by decide) (by decide)).2.1 (by decide)
     (by decide)⟩

/-- Claim C7: for every valid input (length >= period+1, period >= 1) and
every index i >= period where RSI is defined, 0 <= RSI[i] <= 100, with
RSI[i] = 100 exactly when the Wilder-smoothed average loss is 0, and
otherwise RSI[i] = 100 - 100/(1 + avgGain/avgLoss). -/
theorem c7_rsi_bounds (data : List OHLCV) (p i : ℕ) (hp : 1 ≤ p)
    (hlen : p + 1 ≤ data.length) (hi : p ≤ i) (hilen : i < data.length) :
    (CalculateRSI data p).isOk = true
  ∧ 0 ≤ (resultList (CalculateRSI data p)).getD i 0
  ∧ (resultList (CalculateRSI data p)).getD i 0 ≤ 100
  ∧ ((resultList (CalculateRSI data p)).getD i 0 = 100
      ↔ (rsiAvg (closes data) p (i - p)).2 = 0)
  ∧ ((rsiAvg (closes data) p (i - p)).2 ≠ 0 →
      (resultList (CalculateRSI data p)).getD i 0
        = 100 - 100 / (1 + (rsiAvg (closes data) p (i - p)).1
            / (rsiAvg (closes data) p (i - p)).2)) := by
  have hval : (resultList (CalculateRSI data p)).getD i 0
      = rsiValue (rsiAvg (closes data) p (i - p)).1
          (rsiAvg (closes data) p (i - p)).2 := by
    rw [rsi_getD hlen hilen, if_neg (Nat.not_lt.mpr hi)]
  have hnn := rsiAvg_nonneg (closes data) p hp (i - p)
  have hb := rsiValue_bounds hnn.1 hnn.2
  refine ⟨?_, ?_, ?_, ?_, ?_⟩
  · rw [calculateRSI_ok hlen]
    rfl
  · rw [hval]
    exact hb.1
  · rw [hval]
    exact hb.2.1
  · rw [hval]
    exact hb.2.2
  · intro hl
    rw [hval]
    unfold rsiValue
    rw [if_neg hl]

/-- Witness for C7 at the ten-bar test series with period 5, index 6. -/
theorem c7_rsi_bounds_witness :
    (CalculateRSI testData 5).isOk = true
  ∧ 0 ≤ (resultList (CalculateRSI testData 5)).getD 6 0
  ∧ (resultList (CalculateRSI testData 5)).getD 6 0 ≤ 100 :=
  ⟨(c7_rsi_bounds testData 5 6 (by decide) (by decide) (by decide)
      (by decide)).1,
   (c7_rsi_bounds testData 5 6 (by decide) (by decide) (by decide)
      (by decide)).2.1,
   (c7_rsi_bounds testData 5 6 (by decide) (by decide) (by decide)
      (by decide)).2.2.1⟩

theorem bbVar_pos {xs : List ℚ} {p i : ℕ} (hp : 1 ≤ p) (m : ℚ)
    (hnd : ∃ x ∈ window xs p i, ∃ y ∈ window xs p i, x ≠ y) :
    0 < bbVarWith xs p i m := by
  obtain ⟨x, hx, y, hy, hxy⟩ := hnd
  have hz : ∃ z ∈ window xs p i, z ≠ m := by
    by_cases hxm : x = m
    · refine ⟨y, hy, fun h => hxy ?_⟩
      rw [hxm, h]
    · exact ⟨x, hx, hxm⟩
  obtain ⟨z, hzmem, hzm⟩ := hz
  unfold bbVarWith
  apply div_pos
  · have hmem : (z - m) * (z - m)
        ∈ (window xs p i).map fun x => (x - m) * (x - m) :=
      List.mem_map.mpr ⟨z, hzmem, rfl⟩
    have hterm : 0 < (z - m) * (z - m) :=
      mul_self_pos.mpr (sub_ne_zero.mpr hzm)
    have hnonneg : ∀ a ∈ (window xs p i).map fun x => (x - m) * (x - m),
        0 ≤ a := by
      intro a ha
      obtain ⟨w, _, rfl⟩ := List.mem_map.mp ha
      exact mul_self_nonneg _
    calc (0 : ℚ) < (z - m) * (z - m) := hterm
      _ ≤ _ := List.single_le_sum hnonneg _ hmem
  · exact_mod_cast Nat.pos_of_ne_zero (by omega)

theorem calculateBB_ok {data : List OHLCV} {p : ℕ} {dev : ℚ}
    (h : p ≤ data.length) :
    CalculateBollingerBands data p dev =
      .ok ⟨bbUpper data.length p dev (closes data)
             ((List.range data.length).map fun i =>
               if p - 1 ≤ i then (window (closes data) p i).sum / p else 0),
           (List.range data.length).map fun i =>
             if p - 1 ≤ i then (window (closes data) p i).sum / p else 0,
           bbLower data.length p dev (closes data)
             ((List.range data.length).map fun i =>
               if p - 1 ≤ i then (window (closes data) p i).sum / p else 0)⟩ := by
  unfold CalculateBollingerBands
  rw [if_neg (Nat.not_lt.mpr h), calculateSMA_ok h]

/-- Claim C8: with the standard deviation taken as the square root of the
population variance of the trailing window (divide by period), for every
index p-1 <= i < length whose window is non-degenerate (two closes differ)
and every positive deviation, the bands satisfy Lower < Middle < Upper at i,
Middle being the period-SMA and Upper/Lower being Middle plus/minus
deviation times the window standard deviation. -/
theorem c8_bollinger_ordering (data : List OHLCV) (p i : ℕ) (dev : ℚ)
    (hp : 1 ≤ p) (hlen : p ≤ data.length) (hi : p - 1 ≤ i)
    (hilen : i < data.length) (hdev : 0 < dev)
    (hnd : ∃ x ∈ window (closes data) p i,
      ∃ y ∈ window (closes data) p i, x ≠ y) :
    bbOrdered (CalculateBollingerBands data p dev) i := by
  rw [calculateBB_ok hlen]
  simp only [bbOrdered, bbUpper, bbLower, getD_range_map _ _ hilen, hi,
    if_true]
  have hv : 0 < bbVarWith (closes data) p i
      ((window (closes data) p i).sum / p) := bbVar_pos hp _ hnd
  have hvR : (0 : ℝ)
      < ((bbVarWith (closes data) p i ((window (closes data) p i).sum / p) : ℚ)
          : ℝ) := by
    exact_mod_cast hv
  have hs : 0 < Real.sqrt ((bbVarWith (closes data) p i
      ((window (closes data) p i).sum / p) : ℚ) : ℝ) :=
    Real.sqrt_pos.mpr hvR
  have hdR : (0 : ℝ) < ((dev : ℚ) : ℝ) := by exact_mod_cast hdev
  constructor <;> nlinarith [mul_pos hdR hs]

/-- Witness for C8 at the ten-bar test series, period 5, deviation 2,
index 4 (the repository's Bollinger test checks exactly this ordering). -/
theorem c8_bollinger_ordering_witness :
    bbOrdered (CalculateBollingerBands testData 5 2) 4 :=
  c8_bollinger_ordering testData 5 4 2 (by decide) (by decide) (by decide)
    (by decide) (by norm_num)
    ⟨102, by simp [window, closes, testData, List.range_succ], 106,
     by simp [window, closes, testData, List.range_succ], by norm_num⟩

theorem calculateStoch_K {data : List OHLCV} {kp dp : ℕ}
    (hk : kp ≤ data.length)
    (hok : (CalculateStochastic data kp dp).isOk = true) :
    stochasticKList (CalculateStochastic data kp dp) = stochKList data kp := by
  unfold CalculateStochastic at hok ⊢
  rw [if_neg (Nat.not_lt.mpr hk)] at hok ⊢
  cases hE : CalculateSMA ((stochTempData (stochKList data kp)).drop (kp - 1))
      dp with
  | error e =>
    rw [hE] at hok
    simp [Except.isOk, Except.toBool] at hok
  | ok d => rfl

/-- Claim C9: the guarded divisions never divide by zero and the degenerate
cases yield the documented sentinels: %K is 50 exactly where the window's
highest high equals its lowest low (elsewhere the divisor highest-lowest is
nonzero and %K is the un-guarded formula), and RSI is 100 where the smoothed
average loss is 0 (elsewhere both divisors avgLoss and 1+avgGain/avgLoss are
nonzero and RSI is the un-guarded formula). -/
theorem c9_division_guards (data : List OHLCV) (kp dp p i j : ℕ) :
    (1 ≤ kp → kp ≤ data.length → kp - 1 ≤ i → i < data.length →
      (CalculateStochastic data kp dp).isOk = true →
      ((windowHigh data kp i = windowLow data kp i →
         (stochasticKList (CalculateStochastic data kp dp)).getD i 0 = 50)
       ∧ (windowHigh data kp i ≠ windowLow data kp i →
           windowHigh data kp i - windowLow data kp i ≠ 0
           ∧ (stochasticKList (CalculateStochastic data kp dp)).getD i 0
               = ((closes data).getD i 0 - windowLow data kp i)
                 / (windowHigh data kp i - windowLow data kp i) * 100)))
  ∧ (1 ≤ p → p + 1 ≤ data.length → p ≤ j → j < data.length →
      (((rsiAvg (closes data) p (j - p)).2 = 0 →
         (resultList (CalculateRSI data p)).getD j 0 = 100)
       ∧ ((rsiAvg (closes data) p (j - p)).2 ≠ 0 →
           1 + (rsiAvg (closes data) p (j - p)).1
             / (rsiAvg (closes data) p (j - p)).2 ≠ 0
           ∧ (resultList (CalculateRSI data p)).getD j 0
               = 100 - 100 / (1 + (rsiAvg (closes data) p (j - p)).1
                   / (rsiAvg (closes data) p (j - p)).2)))) := by
  constructor
  · intro hk1 hk hi hilen hok
    have hKi : (stochKList data kp).getD i 0 = stochKAt data kp i := by
      unfold stochKList
      rw [getD_range_map _ _ hilen, if_pos hi]
    rw [calculateStoch_K hk hok, hKi]
    constructor
    · intro heq
      unfold stochKAt
      rw [if_pos heq]
    · intro hne
      refine ⟨sub_ne_zero.mpr hne, ?_⟩
      unfold stochKAt
      rw [if_neg hne]
  · intro hp1 hlen hj hjlen
    have hval : (resultList (CalculateRSI data p)).getD j 0
        = rsiValue (rsiAvg (closes data) p (j - p)).1
            (rsiAvg (closes data) p (j - p)).2 := by
      rw [rsi_getD hlen hjlen, if_neg (Nat.not_lt.mpr hj)]
    constructor
    · intro hl
      rw [hval]
      unfold rsiValue
      rw [if_pos hl]
    · intro hl
      have hnn := rsiAvg_nonneg (closes data) p hp1 (j - p)
      have hdiv : 0 ≤ (rsiAvg (closes data) p (j - p)).1
          / (rsiAvg (closes data) p (j - p)).2 := div_nonneg hnn.1 hnn.2
      refine ⟨by linarith, ?_⟩
      rw [hval]
      unfold rsiValue
      rw [if_neg hl]

/-- Witness for C9 at the ten-bar test series: the stochastic window at
index 4 is non-degenerate (highest 115, lowest 98), so the division is by a
nonzero range; the RSI average loss at index 6 is exactly 0 (all closes
rise), so its sentinel branch yields 100. -/
theorem c9_division_guards_witness :
    (windowHigh testData 5 4 - windowLow testData 5 4 ≠ 0
      ∧ (stochasticKList (CalculateStochastic testData 5 3)).getD 4 0
          = ((closes testData).getD 4 0 - windowLow testData 5 4)
            / (windowHigh testData 5 4 - windowLow testData 5 4) * 100)
  ∧ (resultList (CalculateRSI testData 5)).getD 6 0 = 100 :=
  ⟨((c9_division_guards testData 5 3 5 4 6).1 (by decide) (by decide)
      (by decide) (by decide) (by decide)).2
    (by norm_num [windowHigh, windowLow, listMax, listMin, window, highSeries,
      lowSeries, testData, List.range_succ, max_def, min_def]),
   ((c9_division_guards testData 5 3 5 4 6).2 (by decide) (by decide)
      (by decide) (by decide)).1
    (by norm_num [rsiAvg, initialAvgLoss, lossAt, closes, testData,
      List.range_succ, List.getD])⟩

theorem findConnected_none_iff (l : List (String × MarketDataProvider)) :
    findConnected l = none ↔ ∀ n p, (n, p) ∈ l → p.connected = false := by
  induction l with
  | nil => simp [findConnected]
  | cons e rest ih =>
    obtain ⟨n0, p0⟩ := e
    by_cases h : p0.connected = true
    · have hstep : findConnected ((n0, p0) :: rest) = some p0 := by
        unfold findConnected
        rw [if_pos h]
      rw [hstep]
      constructor
      · intro hc
        cases hc
      · intro hall
        have hfalse := hall n0 p0 (List.mem_cons_self _ _)
        rw [h] at hfalse
        cases hfalse
    · have hf : p0.connected = false := by simpa using h
      have hstep : findConnected ((n0, p0) :: rest) = findConnected rest := by
        simp only [findConnected]
        rw [if_neg h]
      rw [hstep, ih]
      constructor
      · intro hall n p hmem
        rcases List.mem_cons.mp hmem with heq | hrest
        · cases heq
          exact hf
        · exact hall n p hrest
      · intro hall n p hmem
        exact hall n p (List.mem_cons_of_mem _ hmem)

theorem findConnected_some {l : List (String × MarketDataProvider)}
    {p : MarketDataProvider} (h : findConnected l = some p) :
    p.connected = true ∧ ∃ n, (n, p) ∈ l := by
  induction l with
  | nil => cases h
  | cons e rest ih =>
    obtain ⟨n0, p0⟩ := e
    by_cases hc : p0.connected = true
    · have hstep : findConnected ((n0, p0) :: rest) = some p0 := by
        unfold findConnected
        rw [if_pos hc]
      rw [hstep] at h
      cases h
      exact ⟨hc, n0, List.mem_cons_self _ _⟩
    · have hstep : findConnected ((n0, p0) :: rest) = findConnected rest := by
        simp only [findConnected]
        rw [if_neg hc]
      rw [hstep] at h
      obtain ⟨hp, n, hmem⟩ := ih h
      exact ⟨hp, n, List.mem_cons_of_mem _ hmem⟩

theorem mapError_ne_noProvider {α : Type _} (r : Except String α) :
    r.mapError ManagerError.providerError
      ≠ Except.error ManagerError.noProvider := by
  cases r <;> simp [Except.mapError]

/-- Claim C5: GetQuote/GetOHLCV delegate to the active provider when it is
set and connected; otherwise they delegate to the first connected provider of
the registry (which is indeed connected and registered); on well-formed
states (active pointer registered), the call fails with the
no-connected-providers error exactly when no registered provider is
connected; and in scenario D (providers A disconnected / B connected,
active = A) GetQuote returns B's quote. -/
theorem c5_provider_fallback :
    (∀ (am : APIManager) (s : String) (a : MarketDataProvider),
      am.active = some a → a.connected = true →
      am.GetQuote s = (a.quote s).mapError ManagerError.providerError)
  ∧ (∀ (am : APIManager) (s tf : String) (ft tt : ℤ)
      (a : MarketDataProvider), am.active = some a → a.connected = true →
      am.GetOHLCV s tf ft tt
        = (a.ohlcv s tf ft tt).mapError ManagerError.providerError)
  ∧ (∀ (am : APIManager) (s : String) (p : MarketDataProvider),
      (∀ a, am.active = some a → a.connected = false) →
      findConnected am.providers = some p →
      p.connected = true ∧ (∃ n, (n, p) ∈ am.providers)
        ∧ am.GetQuote s = (p.quote s).mapError ManagerError.providerError)
  ∧ (∀ (am : APIManager) (s tf : String) (ft tt : ℤ)
      (p : MarketDataProvider),
      (∀ a, am.active = some a → a.connected = false) →
      findConnected am.providers = some p →
      am.GetOHLCV s tf ft tt
        = (p.ohlcv s tf ft tt).mapError ManagerError.providerError)
  ∧ (∀ (am : APIManager) (s : String), am.ActiveRegistered →
      (am.GetQuote s = .error .noProvider
        ↔ ∀ n p, (n, p) ∈ am.providers → p.connected = false))
  ∧ (∀ (am : APIManager) (s tf : String) (ft tt : ℤ), am.ActiveRegistered →
      (am.GetOHLCV s tf ft tt = .error .noProvider
        ↔ ∀ n p, (n, p) ∈ am.providers → p.connected = false))
  ∧ managerAB.GetQuote "RELIANCE"
      = .ok { symbol := "RELIANCE", price := 100, volume := 0 } := by
  refine ⟨?_, ?_, ?_, ?_, ?_, ?_, rfl⟩
  · intro am s a ha hc
    unfold APIManager.GetQuote
    rw [ha]
    dsimp only
    rw [if_pos hc]
  · intro am s tf ft tt a ha hc
    unfold APIManager.GetOHLCV
    rw [ha]
    dsimp only
    rw [if_pos hc]
  · intro am s p hact hfind
    obtain ⟨hp, n, hmem⟩ := findConnected_some hfind
    refine ⟨hp, ⟨n, hmem⟩, ?_⟩
    unfold APIManager.GetQuote
    cases hA : am.active with
    | none =>
      dsimp only
      rw [hfind]
    | some a =>
      have hc := hact a hA
      dsimp only
      rw [if_neg (by rw [hc]; exact Bool.false_ne_true), hfind]
  · intro am s tf ft tt p hact hfind
    unfold APIManager.GetOHLCV
    cases hA : am.active with
    | none =>
      dsimp only
      rw [hfind]
    | some a =>
      have hc := hact a hA
      dsimp only
      rw [if_neg (by rw [hc]; exact Bool.false_ne_true), hfind]
  · intro am s hwf
    constructor
    · intro herr n p hmem
      by_contra hne
      have hpc : p.connected = true := by simpa using hne
      have hfind : findConnected am.providers ≠ none := fun hn => by
        have := (findConnected_none_iff _).mp hn n p hmem
        rw [hpc] at this
        cases this
      obtain ⟨q, hq⟩ := Option.ne_none_iff_exists'.mp hfind
      unfold APIManager.GetQuote at herr
      cases hA : am.active with
      | none =>
        rw [hA] at herr
        dsimp only at herr
        rw [hq] at herr
        exact mapError_ne_noProvider _ herr
      | some a =>
        rw [hA] at herr
        dsimp only at herr
        by_cases hc : a.connected = true
        · rw [if_pos hc] at herr
          exact mapError_ne_noProvider _ herr
        · rw [if_neg hc, hq] at herr
          exact mapError_ne_noProvider _ herr
    · intro hall
      have hfind : findConnected am.providers = none :=
        (findConnected_none_iff _).mpr hall
      unfold APIManager.GetQuote
      cases hA : am.active with
      | none =>
        dsimp only
        rw [hfind]
      | some a =>
        obtain ⟨n, hmem⟩ := hwf a hA
        have hc := hall n a hmem
        dsimp only
        rw [if_neg (by rw [hc]; exact Bool.false_ne_true), hfind]
  · intro am s tf ft tt hwf
    constructor
    · intro herr n p hmem
      by_contra hne
      have hpc : p.connected = true := by simpa using hne
      have hfind : findConnected am.providers ≠ none := fun hn => by
        have := (findConnected_none_iff _).mp hn n p hmem
        rw [hpc] at this
        cases this
      obtain ⟨q, hq⟩ := Option.ne_none_iff_exists'.mp hfind
      unfold APIManager.GetOHLCV at herr
      cases hA : am.active with
      | none =>
        rw [hA] at herr
        dsimp only at herr
        rw [hq] at herr
        exact mapError_ne_noProvider _ herr
      | some a =>
        rw [hA] at herr
        dsimp only at herr
        by_cases hc : a.connected = true
        · rw [if_pos hc] at herr
          exact mapError_ne_noProvider _ herr
        · rw [if_neg hc, hq] at herr
          exact mapError_ne_noProvider _ herr
    · intro hall
      have hfind : findConnected am.providers = none :=
        (findConnected_none_iff _).mpr hall
      unfold APIManager.GetOHLCV
      cases hA : am.active with
      | none =>
        dsimp only
        rw [hfind]
      | some a =>
        obtain ⟨n, hmem⟩ := hwf a hA
        have hc := hall n a hmem
        dsimp only
        rw [if_neg (by rw [hc]; exact Bool.false_ne_true), hfind]

/-- Witness for C5: delegation to a connected active provider on a concrete
one-provider manager, and the scenario-D fallback result. -/
theorem c5_provider_fallback_witness :
    managerB.GetQuote "TCS"
      = (providerB.quote "TCS").mapError ManagerError.providerError
  ∧ managerAB.GetQuote "RELIANCE"
      = .ok { symbol := "RELIANCE", price := 100, volume := 0 } :=
  ⟨c5_provider_fallback.1 managerB "TCS" providerB rfl rfl,
   c5_provider_fallback.2.2.2.2.2.2⟩

theorem subsLookup_none_iff (subs : List (String × List ℕ)) (sym : String) :
    subsLookup subs sym = none ↔ ∀ e ∈ subs, e.1 ≠ sym := by
  induction subs with
  | nil => simp [subsLookup]
  | cons e rest ih =>
    obtain ⟨s, cs⟩ := e
    by_cases hs : s = sym
    · subst hs
      simp [subsLookup]
    · simp [subsLookup, hs, ih]

theorem subsLookup_subsSet_self {subs : List (String × List ℕ)} {sym : String}
    {cs0 : List ℕ} (h : subsLookup subs sym = some cs0) (cs : List ℕ) :
    subsLookup (subsSet subs sym cs) sym = some cs := by
  induction subs with
  | nil => cases h
  | cons e rest ih =>
    obtain ⟨s, old⟩ := e
    by_cases hs : s = sym
    · subst hs
      simp [subsLookup, subsSet]
    · simp only [subsLookup, subsSet, hs, if_false] at h ⊢
      exact ih h

theorem subsLookup_subsErase_self {subs : List (String × List ℕ)}
    {sym : String} (hnd : (subs.map Prod.fst).Nodup) :
    subsLookup (subsErase subs sym) sym = none := by
  induction subs with
  | nil => rfl
  | cons e rest ih =>
    obtain ⟨s, cs⟩ := e
    have hnd' : (rest.map Prod.fst).Nodup := (List.nodup_cons.mp hnd).2
    by_cases hs : s = sym
    · subst hs
      have hnot : s ∉ rest.map Prod.fst := (List.nodup_cons.mp hnd).1
      simp only [subsErase, if_pos rfl]
      rw [subsLookup_none_iff]
      intro e he heq
      exact hnot (heq ▸ List.mem_map_of_mem Prod.fst he)
    · simp only [subsErase, hs, if_false, subsLookup]
      exact ih hnd'

theorem subsLookup_append_none {a : List (String × List ℕ)}
    (b : List (String × List ℕ)) {sym : String}
    (h : subsLookup a sym = none) :
    subsLookup (a ++ b) sym = subsLookup b sym := by
  induction a with
  | nil => rfl
  | cons e rest ih =>
    obtain ⟨s, cs⟩ := e
    by_cases hs : s = sym
    · subst hs
      simp [subsLookup] at h
    · simp only [subsLookup, hs, if_false, List.cons_append] at h ⊢
      exact ih h

theorem subsErase_append_of_none {a : List (String × List ℕ)} {sym : String}
    (h : subsLookup a sym = none) (cs : List ℕ) :
    subsErase (a ++ [(sym, cs)]) sym = a := by
  induction a with
  | nil => simp [subsErase]
  | cons e rest ih =>
    obtain ⟨s, cs0⟩ := e
    by_cases hs : s = sym
    · subst hs
      simp [subsLookup] at h
    · simp only [subsLookup, hs, if_false] at h
      simp only [List.cons_append, subsErase, hs, if_false]
      exact congrArg (fun l => (s, cs0) :: l) (ih h)

/-- Counterexample to claim C6 as stated: an empty subscriber set can be
retained. BroadcastToSymbol over a full mailbox drops the last subscriber of
X from the set but does not prune the symbol entry, leaving X mapped to the
empty set in the subscription map. -/
theorem c6_counterexample :
    subsLookup (hubFullMailbox.BroadcastToSymbol "X" "m").subscriptions "X"
      = some [] := by
  decide

/-- Claim C6 (amended): Unsubscribe removes the connection from the symbol's
subscriber set and prunes the entry when the set empties (on states whose
subscription keys are distinct, as all reachable map states are), so
subscribing then unsubscribing the last connection of a symbol leaves no
entry; BroadcastToSymbol on a symbol with no entry, or with an empty
subscriber set, changes no hub state and delivers nothing. The drop-on-full
path of BroadcastToSymbol can however retain an emptied subscriber set. -/
theorem c6_unsubscribe_prunes :
    (∀ (h : Hub) (c : ℕ) (sym : String) (cs : List ℕ),
      (h.subscriptions.map Prod.fst).Nodup →
      subsLookup h.subscriptions sym = some cs →
      (cs.erase c = [] →
        subsLookup (h.Unsubscribe c sym).subscriptions sym = none)
      ∧ (cs.erase c ≠ [] →
        subsLookup (h.Unsubscribe c sym).subscriptions sym
          = some (cs.erase c)))
  ∧ (∀ (h : Hub) (c : ℕ) (sym : String),
      subsLookup h.subscriptions sym = none →
      subsLookup ((h.Subscribe c sym).Unsubscribe c sym).subscriptions sym
        = none)
  ∧ (∀ (h : Hub) (sym m : String),
      subsLookup h.subscriptions sym = none → h.BroadcastToSymbol sym m = h)
  ∧ (∀ (h : Hub) (sym m : String),
      subsLookup h.subscriptions sym = some [] →
      h.BroadcastToSymbol sym m = h) := by
  refine ⟨?_, ?_, ?_, ?_⟩
  · intro h c sym cs hnd hl
    unfold Hub.Unsubscribe
    rw [hl]
    dsimp only
    constructor
    · intro he
      rw [if_pos he]
      exact subsLookup_subsErase_self hnd
    · intro he
      rw [if_neg he]
      exact subsLookup_subsSet_self hl _
  · intro h c sym hl
    have hsub : (h.Subscribe c sym).subscriptions
        = h.subscriptions ++ [(sym, [c])] := by
      unfold Hub.Subscribe
      rw [hl]
    have hlook : subsLookup (h.Subscribe c sym).subscriptions sym
        = some [c] := by
      rw [hsub, subsLookup_append_none _ hl]
      simp [subsLookup]
    unfold Hub.Unsubscribe
    rw [hlook]
    dsimp only
    rw [if_pos (by simp : ([c] : List ℕ).erase c = [])]
    show subsLookup (subsErase (h.Subscribe c sym).subscriptions sym) sym
      = none
    rw [hsub, subsErase_append_of_none hl]
    exact hl
  · intro h sym m hl
    unfold Hub.BroadcastToSymbol
    rw [hl]
  · intro h sym m hl
    unfold Hub.BroadcastToSymbol
    rw [hl]
    rfl

/-- Witness for C6 at a concrete idle hub: subscribe connection 1 to
RELIANCE, unsubscribe it again, and the symbol's entry is gone; broadcasting
to a symbol nobody subscribes to leaves the hub untouched. -/
theorem c6_unsubscribe_prunes_witness :
    subsLookup
      (((hubIdle.Subscribe 1 "RELIANCE").Unsubscribe 1
          "RELIANCE").subscriptions) "RELIANCE" = none
  ∧ hubIdle.BroadcastToSymbol "RELIANCE" "m" = hubIdle :=
  ⟨c6_unsubscribe_prunes.2.1 hubIdle 1 "RELIANCE" rfl,
   c6_unsubscribe_prunes.2.2.1 hubIdle "RELIANCE" "m" rfl⟩

/-- Claim C1, evaluated at the failing input: in a hub whose only client 1 is
subscribed to X with a full mailbox, a global Broadcast drops client 1 from
the registry and closes its mailbox — but leaves it in X's subscriber set, so
the next BroadcastToSymbol for X still references the dropped connection and
executes a send on its closed channel, which panics in Go. This contradicts
the claim that no subsequent broadcast ever enqueues to or references the
dropped connection. -/
theorem c1_dropped_connection_still_referenced :
    ((hubFullMailbox.Broadcast "m1").clients = [])
  ∧ (((hubFullMailbox.Broadcast "m1").mailboxes 1).closed = true)
  ∧ (subsLookup (hubFullMailbox.Broadcast "m1").subscriptions "X"
      = some [1])
  ∧ (((hubFullMailbox.Broadcast "m1").BroadcastToSymbol "X" "m2").panicked
      = true) := by
  decide

/-- Claim C10: an inbound subscribe or unsubscribe frame whose symbol field
is empty (the unmarshalled value of an absent field) is silently ignored:
the hub state is returned unchanged and no acknowledgement frame is passed
to sendMessage; a frame with a non-empty symbol elicits exactly the
subscribed/unsubscribed acknowledgement. -/
theorem c10_empty_symbol_ignored (h : Hub) (c : ℕ) (t : String)
    (ht : t = "subscribe" ∨ t = "unsubscribe") :
    Client.handleMessage h c ⟨t, ""⟩ = (h, [])
  ∧ (∀ sym : String, sym ≠ "" →
      (Client.handleMessage h c ⟨"subscribe", sym⟩).2
        = [⟨"subscribed", sym⟩]
      ∧ (Client.handleMessage h c ⟨"unsubscribe", sym⟩).2
        = [⟨"unsubscribed", sym⟩]) := by
  constructor
  · rcases ht with rfl | rfl <;> simp [Client.handleMessage]
  · intro sym hsym
    constructor <;> simp [Client.handleMessage, hsym]

/-- Witness for C10 at a concrete idle hub and connection 7. -/
theorem c10_empty_symbol_ignored_witness :
    Client.handleMessage hubIdle 7 ⟨"subscribe", ""⟩ = (hubIdle, [])
  ∧ Client.handleMessage hubIdle 7 ⟨"unsubscribe", ""⟩ = (hubIdle, []) :=
  ⟨(c10_empty_symbol_ignored hubIdle 7 "subscribe" (Or.inl rfl)).1,
   (c10_empty_symbol_ignored hubIdle 7 "unsubscribe" (Or.inr rfl)).1⟩

end AlgoTrading
